import Mathlib

/-!
Verification of the Blitz Arena room/match core (src/server/roomManager.js,
src/shared/gameConfig.js and the roomId derivation of the server entry file).

Numbers: JS numbers are modelled as exact rationals (ℚ); timestamps in
milliseconds as integers (ℤ).  NaN / ±Infinity / non-number inputs, which the
source rejects via typeof + isFinite guards, are modelled by the JSVal type.
The two square roots of the source (direction length in fireProjectile and
planar distance in tick) occur only inside comparisons against nonnegative
constants, so they are embedded by the equivalent squared comparisons
(sqrt a < c  ↔  a < c * c  for 0 ≤ a, 0 ≤ c).  The normalized direction
components nx = dirX / len, nz = dirZ / len are not rational in general, so
fireProjectile is parametrised by the normalization function; no claim below
depends on the normalized values.
-/

namespace Blitz

/-! ## Configuration constants (src/shared/gameConfig.js) -/

def ARENA_WIDTH : ℚ := 30
def ARENA_DEPTH : ℚ := 20
def PLAYER_RADIUS : ℚ := 3 / 5
def PLAYER_SPAWN_OFFSET : ℚ := 8
def PROJECTILE_SPEED : ℚ := 16
def PROJECTILE_RADIUS : ℚ := 1 / 4
def PROJECTILE_LIFETIME : ℤ := 3000
def FIRE_COOLDOWN : ℤ := 350
def MAX_PLAYERS : ℕ := 2
def WIN_SCORE : ℕ := 10
def MATCH_DURATION : ℚ := 180
def TICK_RATE : ℚ := 20

/-- The exact rational value of the IEEE-754 double Math.PI, used by
addPlayer and startCountdown for the second player's spawn rotation. -/
def jsPI : ℚ := mkRat 884279719003555 281474976710656

/-! ## JS values crossing the trust boundary -/

/-- A JS value arriving in a client message: a finite number, a number that is
NaN or ±Infinity (typeof number but not isFinite), or any non-number value. -/
inductive JSVal where
  | fin (q : ℚ)
  | nonFinite
  | nonNumber
deriving DecidableEq, Repr

/-- The guard typeof v === number ∧ isFinite v used by the move and fire
validators. -/
def JSVal.isFin : JSVal → Bool
  | JSVal.fin _ => true
  | _ => false

/-- The numeric value of a finite JS number; only read behind an isFin
guard, mirroring the source's validate-then-use pattern. -/
def JSVal.val : JSVal → ℚ
  | JSVal.fin q => q
  | _ => 0

/-- Math.abs. -/
def jsAbs (q : ℚ) : ℚ := if q < 0 then -q else q

/-! ## Entity model -/

/-- Room phase: the `state` field of a room. -/
inductive Phase where
  | waiting
  | countdown
  | playing
  | ended
deriving DecidableEq, Repr

structure Player where
  id : String
  roomId : String
  characterId : String
  x : ℚ
  z : ℚ
  rotation : ℚ
  score : ℕ
  lastHeartbeat : ℤ
  lastFireTime : ℤ
deriving DecidableEq, Repr

structure Projectile where
  id : String
  ownerId : String
  x : ℚ
  z : ℚ
  vx : ℚ
  vz : ℚ
  createdAt : ℤ
deriving DecidableEq, Repr

/-- A hit record pushed by tick. -/
structure Hit where
  projectileId : String
  shooterId : String
  targetId : String
  x : ℚ
  z : ℚ
deriving DecidableEq, Repr

/-- A room.  The JS Maps `players` and `projectiles` are insertion-ordered
association lists; the setInterval handles matchTimer / countdownTimer are
modelled by whether a timer is pending. -/
structure Room where
  id : String
  players : List (String × Player)
  projectiles : List (String × Projectile)
  state : Phase
  matchTimer : Bool
  countdownTimer : Bool
  startTime : Option ℤ
  timeRemaining : ℚ
deriving DecidableEq, Repr

/-! ## Insertion-ordered map operations (JS Map.get / Map.set / Map.delete) -/

def listGet {α : Type} : List (String × α) → String → Option α
  | [], _ => none
  | e :: rest, k => if e.1 = k then some e.2 else listGet rest k

def listSet {α : Type} : List (String × α) → String → α → List (String × α)
  | [], k, v => [(k, v)]
  | e :: rest, k, v => if e.1 = k then (k, v) :: rest else e :: listSet rest k v

def listDel {α : Type} : List (String × α) → String → List (String × α)
  | [], _ => []
  | e :: rest, k => if e.1 = k then rest else e :: listDel rest k

/-! ## Room registry -/

/-- The room freshly materialized by getRoom (roomManager.js lines 15-29). -/
def initRoom (roomId : String) : Room :=
  { id := roomId
    players := []
    projectiles := []
    state := Phase.waiting
    matchTimer := false
    countdownTimer := false
    startTime := none
    timeRemaining := MATCH_DURATION }

/-- Whether a character is in the alphanumeric-plus-underscore/hyphen
allowlist the audit document and the spec describe for room ids. -/
def isAllowedChar (c : Char) : Bool :=
  c.isAlpha || c.isDigit || c = '_' || c = '-'

/-- The roomId derivation of the connection handler (server entry file):
rawRoom = params.room || the default; roomId = String(rawRoom).slice(0, 64).
An absent query parameter is none; an empty string is falsy in JS, so it also
falls back to the default. -/
def deriveRoomId (paramsRoom : Option String) : String :=
  let rawRoom := match paramsRoom with
    | none => "default"
    | some s => if s = "" then "default" else s
  String.mk (rawRoom.data.take 64)

/-- addPlayer (roomManager.js lines 32-62).  The uuid-generated player id is
supplied by the caller; the connection handle is transport state and omitted. -/
def addPlayer (room : Room) (playerId : String) (now : ℤ) : Option Player × Room :=
  if MAX_PLAYERS ≤ room.players.length then (none, room)
  else
    let playerIndex := room.players.length
    let characterKey := if playerIndex = 0 then "cupid_prime" else "dark_cupid"
    let spawnX := if playerIndex = 0 then -PLAYER_SPAWN_OFFSET else PLAYER_SPAWN_OFFSET
    let player : Player :=
      { id := playerId
        roomId := room.id
        characterId := characterKey
        x := spawnX
        z := 0
        rotation := if playerIndex = 0 then 0 else jsPI
        score := 0
        lastHeartbeat := now
        lastFireTime := 0 }
    (some player, { room with players := listSet room.players playerId player })

/-- removePlayer (roomManager.js lines 65-84).  none means the room became
empty and was deleted from the registry; stopMatch clears both timers. -/
def removePlayer (room : Room) (playerId : String) : Option Room :=
  let players2 := listDel room.players playerId
  if players2.length = 0 then none
  else if room.state = Phase.playing ∨ room.state = Phase.countdown then
    some { room with players := players2, state := Phase.waiting, projectiles := [],
                     matchTimer := false, countdownTimer := false }
  else some { room with players := players2 }

/-- updatePlayerPosition (roomManager.js lines 87-105). -/
def updatePlayerPosition (room : Room) (playerId : String) (x z rot : JSVal) : Room :=
  match listGet room.players playerId with
  | none => room
  | some player =>
    if x.isFin && z.isFin && rot.isFin then
      let hw := ARENA_WIDTH / 2 - PLAYER_RADIUS
      let hd := ARENA_DEPTH / 2 - PLAYER_RADIUS
      let player2 : Player :=
        { player with
           x := max (-hw) (min hw x.val), z := max (-hd) (min hd z.val), rotation := rot.val }
      { room with players := listSet room.players playerId player2 }
    else room

/-- The projectile spawned by a successful fire (roomManager.js lines
129-138): offset one unit along the normalized aim direction from the
shooter's position, velocity = normalized direction × PROJECTILE_SPEED. -/
def spawnProj (norm : ℚ → ℚ → ℚ × ℚ) (playerId projId : String) (player : Player)
    (dx dz : ℚ) (now : ℤ) : Projectile :=
  { id := projId
    ownerId := playerId
    x := player.x + (norm dx dz).1 * 1
    z := player.z + (norm dx dz).2 * 1
    vx := (norm dx dz).1 * PROJECTILE_SPEED
    vz := (norm dx dz).2 * PROJECTILE_SPEED
    createdAt := now }

/-- fireProjectile (roomManager.js lines 108-142).  norm models
(dx, dz) ↦ (dx / len, dz / len) with len = sqrt (dx² + dz²); the source's
len < 0.01 test is embedded as dx² + dz² < 0.0001.  Note the source writes
player.lastFireTime = now before the degenerate-direction check. -/
def fireProjectile (norm : ℚ → ℚ → ℚ × ℚ) (room : Room) (playerId projId : String)
    (dirX dirZ : JSVal) (now : ℤ) : Option Projectile × Room :=
  if room.state = Phase.playing then
    match listGet room.players playerId with
    | none => (none, room)
    | some player =>
      if dirX.isFin && dirZ.isFin then
        if now - player.lastFireTime < FIRE_COOLDOWN then (none, room)
        else
          let player2 : Player := { player with lastFireTime := now }
          let room2 : Room := { room with players := listSet room.players playerId player2 }
          if dirX.val * dirX.val + dirZ.val * dirZ.val < 1 / 10000 then (none, room2)
          else
            let proj := spawnProj norm playerId projId player dirX.val dirZ.val now
            (some proj, { room2 with projectiles := listSet room2.projectiles projId proj })
      else (none, room)
  else (none, room)

/-! ## Simulation step -/

/-- Accumulator for the projectile loop of tick. -/
structure TickAcc where
  players : List (String × Player)
  projs : List (String × Projectile)
  hits : List Hit
  expired : List String
  state : Phase
deriving DecidableEq, Repr

/-- First player (in insertion order) other than the owner within hit
distance of (px, pz); dist < hitDist is embedded as dist² < hitDist². -/
def findHit (ownerId : String) (px pz : ℚ) : List (String × Player) → Option (String × Player)
  | [] => none
  | e :: rest =>
    if e.1 ≠ ownerId ∧
        (px - e.2.x) * (px - e.2.x) + (pz - e.2.z) * (pz - e.2.z)
          < (PLAYER_RADIUS + PROJECTILE_RADIUS) * (PLAYER_RADIUS + PROJECTILE_RADIUS)
    then some e
    else findHit ownerId px pz rest

/-- One iteration of tick's projectile loop (roomManager.js lines 155-206):
integrate, expire on out-of-bounds or lifetime, else hit-test; on a hit the
shooter (if still present) scores, the hit record is pushed, the projectile
expires, and the win condition may end the match. -/
def stepProj (now : ℤ) (acc : TickAcc) (entry : String × Projectile) : TickAcc :=
  let projId := entry.1
  let proj : Projectile :=
    { entry.2 with
      x := entry.2.x + entry.2.vx * (1 / TICK_RATE)
      z := entry.2.z + entry.2.vz * (1 / TICK_RATE) }
  if ARENA_WIDTH / 2 < jsAbs proj.x ∨ ARENA_DEPTH / 2 < jsAbs proj.z then
    { acc with projs := acc.projs ++ [(projId, proj)], expired := acc.expired ++ [projId] }
  else if PROJECTILE_LIFETIME < now - proj.createdAt then
    { acc with projs := acc.projs ++ [(projId, proj)], expired := acc.expired ++ [projId] }
  else
    match findHit proj.ownerId proj.x proj.z acc.players with
    | none => { acc with projs := acc.projs ++ [(projId, proj)] }
    | some tgt =>
      let hit : Hit :=
        { projectileId := projId, shooterId := proj.ownerId, targetId := tgt.1,
          x := proj.x, z := proj.z }
      match listGet acc.players proj.ownerId with
      | some shooter =>
        let shooter2 : Player := { shooter with score := shooter.score + 1 }
        { players := listSet acc.players proj.ownerId shooter2
          projs := acc.projs ++ [(projId, proj)]
          hits := acc.hits ++ [hit]
          expired := acc.expired ++ [projId]
          state := if WIN_SCORE ≤ shooter2.score then Phase.ended else acc.state }
      | none =>
        { acc with projs := acc.projs ++ [(projId, proj)],
                   hits := acc.hits ++ [hit], expired := acc.expired ++ [projId] }

/-- The timer update at the end of tick (roomManager.js lines 214-221).
A startTime of 0 is falsy in JS, so the update is skipped for it too. -/
def tickTimer (room : Room) (now : ℤ) : Room :=
  match room.startTime with
  | none => room
  | some t0 =>
    if t0 = 0 then room
    else
      let tr := max 0 (MATCH_DURATION - ((now - t0 : ℤ) : ℚ) / 1000)
      let st := if tr ≤ 0 ∧ room.state = Phase.playing then Phase.ended else room.state
      { room with timeRemaining := tr, state := st }

/-- The initial accumulator of tick's projectile loop. -/
def tickAcc0 (room : Room) : TickAcc :=
  { players := room.players, projs := [], hits := [], expired := [], state := room.state }

/-- tick (roomManager.js lines 145-224). -/
def tick (room : Room) (now : ℤ) : List Hit × Room :=
  if room.state = Phase.playing then
    let acc := room.projectiles.foldl (stepProj now) (tickAcc0 room)
    let projs2 := acc.projs.filter (fun e => ! acc.expired.contains e.1)
    let room2 : Room :=
      { room with players := acc.players, projectiles := projs2, state := acc.state }
    (acc.hits, tickTimer room2 now)
  else ([], room)

/-! ## Match lifecycle -/

/-- The per-player reset of startCountdown, with the running index i of the
source loop (i = 0 gets the left spawn, every other index the right one). -/
def resetPlayers : ℕ → List (String × Player) → List (String × Player)
  | _, [] => []
  | i, e :: rest =>
    (e.1, { e.2 with
             score := 0
             x := if i = 0 then -PLAYER_SPAWN_OFFSET else PLAYER_SPAWN_OFFSET
             z := 0
             rotation := if i = 0 then 0 else jsPI }) :: resetPlayers (i + 1) rest

/-- The synchronous entry actions of startCountdown (roomManager.js lines
264-286): set state, clear projectiles, reset scores and spawns, arm the
countdown timer.  The per-second count events are driver-side. -/
def startCountdownEntry (room : Room) : Room :=
  { room with state := Phase.countdown, projectiles := [],
              players := resetPlayers 0 room.players, countdownTimer := true }

/-- startMatch (roomManager.js lines 303-314), reached when the countdown
interval hits zero; the interval is cleared just before the call. -/
def startMatchEntry (room : Room) (now : ℤ) : Room :=
  { room with state := Phase.playing, startTime := some now,
              timeRemaining := MATCH_DURATION, countdownTimer := false }

/-- stopMatch (roomManager.js lines 317-329): clears both timers. -/
def stopMatchOp (room : Room) : Room :=
  { room with matchTimer := false, countdownTimer := false }

/-- getMatchResults (roomManager.js lines 332-358).  players holds
(id, characterId, score) triples in insertion order. -/
structure MatchResults where
  players : List (String × String × ℕ)
  winnerId : Option String
  isTie : Bool
  reason : String
deriving DecidableEq, Repr

def getMatchResults (room : Room) : MatchResults :=
  let entries := room.players.map (fun e => (e.2.id, e.2.characterId, e.2.score))
  let win := room.players.foldl
    (fun acc e => if acc.2 < (e.2.score : ℤ) then (some e.2.id, (e.2.score : ℤ)) else acc)
    ((none : Option String), (-1 : ℤ))
  let scores := room.players.map (fun e => e.2.score)
  let isTie := match scores with
    | [s1, s2] => decide (s1 = s2)
    | _ => false
  { players := entries
    winnerId := if isTie then none else win.1
    isTie := isTie
    reason := if room.timeRemaining ≤ 0 then "timeout" else "score" }

/-- handleRematch (roomManager.js lines 361-368). -/
def handleRematch (room : Room) : Bool × Room :=
  if room.state = Phase.ended then
    (true, { room with projectiles := [], state := Phase.waiting })
  else (false, room)

/-- heartbeat (roomManager.js lines 371-378). -/
def heartbeat (room : Room) (playerId : String) (now : ℤ) : Room :=
  match listGet room.players playerId with
  | none => room
  | some player =>
    { room with players := listSet room.players playerId { player with lastHeartbeat := now } }

/-! ## Reachability: every room the core can produce from a fresh room -/

inductive Reachable : Room → Prop where
  | init (roomId : String) : Reachable (initRoom roomId)
  | add (room : Room) (pid : String) (now : ℤ) :
      Reachable room → Reachable (addPlayer room pid now).2
  | remove (room r2 : Room) (pid : String) :
      Reachable room → removePlayer room pid = some r2 → Reachable r2
  | move (room : Room) (pid : String) (x z rot : JSVal) :
      Reachable room → Reachable (updatePlayerPosition room pid x z rot)
  | fire (norm : ℚ → ℚ → ℚ × ℚ) (room : Room) (pid projId : String) (dx dz : JSVal) (now : ℤ) :
      Reachable room → Reachable (fireProjectile norm room pid projId dx dz now).2
  | step (room : Room) (now : ℤ) :
      Reachable room → Reachable (tick room now).2
  | countdown (room : Room) :
      Reachable room → Reachable (startCountdownEntry room)
  | start (room : Room) (now : ℤ) :
      Reachable room → Reachable (startMatchEntry room now)
  | stop (room : Room) :
      Reachable room → Reachable (stopMatchOp room)
  | rematch (room : Room) :
      Reachable room → Reachable (handleRematch room).2
  | beat (room : Room) (pid : String) (now : ℤ) :
      Reachable room → Reachable (heartbeat room pid now)

/-! ## Concrete states used as counterexample and witness inputs -/

/-- A player record with the given id, position, score and lastFireTime;
the remaining fields are the join defaults. -/
def mkPlayer (pid : String) (px pz : ℚ) (sc : ℕ) (lft : ℤ) : Player :=
  { id := pid, roomId := "r", characterId := "cupid_prime", x := px, z := pz,
    rotation := 0, score := sc, lastHeartbeat := 0, lastFireTime := lft }

/-- A playing room whose single surviving projectile is mid-flight while the
match timer expires: owner "a" at the origin, projectile "q" at (1, 1) with
zero velocity, created 100 ms before the tick, startTime 1000 ms. -/
def roomTimeoutProj : Room :=
  { id := "r"
    players := [("a", mkPlayer "a" 0 0 0 0)]
    projectiles := [("q", { id := "q", ownerId := "a", x := 1, z := 1, vx := 0, vz := 0,
                            createdAt := 180900 })]
    state := Phase.playing
    matchTimer := false
    countdownTimer := false
    startTime := some 1000
    timeRemaining := 180 }

/-- A playing room with one idle player "a" (lastFireTime 0), used to fire a
degenerate direction after the cooldown has elapsed. -/
def roomIdleFire : Room :=
  { id := "r"
    players := [("a", mkPlayer "a" 0 0 0 0)]
    projectiles := []
    state := Phase.playing
    matchTimer := false
    countdownTimer := false
    startTime := some 1000
    timeRemaining := 180 }

/-- A playing room where shooter "a" (score 9) has a projectile about to hit
"b" on the very tick the match timer reaches zero (startTime 1000, tick at
181000). -/
def roomScoreAtTimeout : Room :=
  { id := "r"
    players := [("a", mkPlayer "a" (-5) 0 9 0), ("b", mkPlayer "b" 5 0 0 0)]
    projectiles := [("q", { id := "q", ownerId := "a", x := 9/2, z := 0, vx := 2, vz := 0,
                            createdAt := 180950 })]
    state := Phase.playing
    matchTimer := false
    countdownTimer := false
    startTime := some 1000
    timeRemaining := 180 }

/-- Same configuration but early in the match (tick at 2000 ms), so the score
win lands with time remaining. -/
def roomScoreEarly : Room :=
  { id := "r"
    players := [("a", mkPlayer "a" (-5) 0 9 0), ("b", mkPlayer "b" 5 0 0 0)]
    projectiles := [("q", { id := "q", ownerId := "a", x := 9/2, z := 0, vx := 2, vz := 0,
                            createdAt := 1950 })]
    state := Phase.playing
    matchTimer := false
    countdownTimer := false
    startTime := some 1000
    timeRemaining := 180 }

/-- A full two-player room in countdown, used for the departure-abort and
capacity witnesses. -/
def roomTwoCountdown : Room :=
  { id := "r"
    players := [("a", mkPlayer "a" (-8) 0 0 0), ("b", mkPlayer "b" 8 0 0 0)]
    projectiles := []
    state := Phase.countdown
    matchTimer := false
    countdownTimer := true
    startTime := none
    timeRemaining := 180 }

/-- An ended room holding a leftover projectile, for the rematch witness. -/
def roomEndedLeftover : Room :=
  { id := "r"
    players := [("a", mkPlayer "a" (-5) 0 10 0), ("b", mkPlayer "b" 5 0 0 0)]
    projectiles := [("q", { id := "q", ownerId := "a", x := 1, z := 1, vx := 0, vz := 0,
                            createdAt := 0 })]
    state := Phase.ended
    matchTimer := false
    countdownTimer := false
    startTime := some 1000
    timeRemaining := 0 }

/-- The tick accumulator for the orphan-projectile witness: only "b" is
present, and the incoming projectile belongs to the departed "x". -/
def accOrphan : TickAcc :=
  { players := [("b", mkPlayer "b" 5 0 0 0)]
    projs := []
    hits := []
    expired := []
    state := Phase.playing }

/-- The orphan projectile of the witness: owner "x" is not in accOrphan. -/
def projOrphan : Projectile :=
  { id := "q", ownerId := "x", x := 9/2, z := 0, vx := 2, vz := 0, createdAt := 0 }

/-- The identity is used where a concrete normalization function is needed;
the degenerate and rejection branches never evaluate it. -/
def normId : ℚ → ℚ → ℚ × ℚ := fun dx dz => (dx, dz)

/-- The rooms of the join / join / remove-first / join scenario. -/
def roomJoinA : Room := (addPlayer (initRoom "r") "a" 0).2
def roomJoinAB : Room := (addPlayer roomJoinA "b" 0).2
def roomAfterLeave : Option Room := removePlayer roomJoinAB "a"
def roomRejoined : Option Room := roomAfterLeave.map (fun r => (addPlayer r "c" 0).2)

/-! ## Helper lemmas -/

theorem foldlInv {α β : Type} (P : α → Prop) (f : α → β → α)
    (hf : ∀ a b, P a → P (f a b)) :
    ∀ (l : List β) (a : α), P a → P (l.foldl f a) := by
  intro l
  induction l with
  | nil => intro a ha; exact ha
  | cons b rest ih => intro a ha; exact ih (f a b) (hf a b ha)

theorem listGet_listSet_self {α : Type} (m : List (String × α)) (k : String) (v : α) :
    listGet (listSet m k v) k = some v := by
  induction m with
  | nil => simp [listSet, listGet]
  | cons e rest ih =>
    by_cases h : e.1 = k
    · simp [listSet, h, listGet]
    · simp [listSet, h, listGet, ih]

theorem length_listSet_some {α : Type} (m : List (String × α)) (k : String) (v w : α)
    (h : listGet m k = some v) : (listSet m k w).length = m.length := by
  induction m with
  | nil => simp [listGet] at h
  | cons e rest ih =>
    by_cases he : e.1 = k
    · simp [listSet, he]
    · simp [listGet, he] at h
      simp [listSet, he, ih h]

theorem length_listSet_none {α : Type} (m : List (String × α)) (k : String) (w : α)
    (h : listGet m k = none) : (listSet m k w).length = m.length + 1 := by
  induction m with
  | nil => simp [listSet]
  | cons e rest ih =>
    by_cases he : e.1 = k
    · simp [listGet, he] at h
    · simp [listGet, he] at h
      simp [listSet, he, ih h]

theorem length_listSet_le {α : Type} (m : List (String × α)) (k : String) (w : α) :
    (listSet m k w).length ≤ m.length + 1 := by
  cases h : listGet m k with
  | none => rw [length_listSet_none m k w h]
  | some v => rw [length_listSet_some m k v w h]; omega

theorem length_listDel_le {α : Type} (m : List (String × α)) (k : String) :
    (listDel m k).length ≤ m.length := by
  induction m with
  | nil => simp [listDel]
  | cons e rest ih =>
    by_cases he : e.1 = k
    · simp [listDel, he]
    · simp [listDel, he]; omega

theorem mem_listSet {α : Type} (m : List (String × α)) (k : String) (v : α)
    (e : String × α) (h : e ∈ listSet m k v) : e = (k, v) ∨ e ∈ m := by
  induction m with
  | nil => simp [listSet] at h; simp [h]
  | cons f rest ih =>
    by_cases hf : f.1 = k
    · simp [listSet, hf] at h
      rcases h with h | h
      · exact Or.inl h
      · exact Or.inr (List.mem_cons_of_mem f h)
    · simp [listSet, hf] at h
      rcases h with h | h
      · exact Or.inr (by simp [h])
      · rcases ih h with h2 | h2
        · exact Or.inl h2
        · exact Or.inr (List.mem_cons_of_mem f h2)

theorem length_resetPlayers (i : ℕ) (l : List (String × Player)) :
    (resetPlayers i l).length = l.length := by
  induction l generalizing i with
  | nil => simp [resetPlayers]
  | cons e rest ih => simp [resetPlayers, ih]

theorem tickTimer_players (room : Room) (now : ℤ) :
    (tickTimer room now).players = room.players := by
  unfold tickTimer
  cases room.startTime with
  | none => rfl
  | some t0 =>
    by_cases h : t0 = 0
    · simp [h]
    · simp [h]

theorem tickTimer_state_ended (room : Room) (now : ℤ) (h : room.state = Phase.ended) :
    (tickTimer room now).state = Phase.ended := by
  unfold tickTimer
  cases room.startTime with
  | none => exact h
  | some t0 =>
    by_cases h0 : t0 = 0
    · simp [h0, h]
    · simp [h0, h]

theorem stepProj_players_length (now : ℤ) (acc : TickAcc) (e : String × Projectile) :
    (stepProj now acc e).players.length = acc.players.length := by
  unfold stepProj
  dsimp only
  split
  · rfl
  · split
    · rfl
    · split
      · rfl
      · split
        · rename_i shooter hshooter
          simp only
          exact length_listSet_some acc.players _ shooter _ hshooter
        · rfl

theorem updatePlayerPosition_players_length (room : Room) (pid : String) (x z rot : JSVal) :
    (updatePlayerPosition room pid x z rot).players.length = room.players.length := by
  unfold updatePlayerPosition
  split
  · rfl
  · rename_i player hsome
    by_cases hfin : (x.isFin && z.isFin && rot.isFin) = true
    · rw [if_pos hfin]
      exact length_listSet_some room.players pid player _ hsome
    · rw [if_neg hfin]

theorem heartbeat_players_length (room : Room) (pid : String) (now : ℤ) :
    (heartbeat room pid now).players.length = room.players.length := by
  unfold heartbeat
  cases hpl : listGet room.players pid with
  | none => rfl
  | some pl => exact length_listSet_some room.players pid pl _ hpl

/-- Every call to fireProjectile either leaves the room unchanged and returns
null, updates only the firing player's lastFireTime and returns null
(degenerate direction after the cooldown write), or spawns a projectile. -/
theorem fireProjectile_spec (norm : ℚ → ℚ → ℚ × ℚ) (room : Room) (pid projId : String)
    (dirX dirZ : JSVal) (now : ℤ) :
    fireProjectile norm room pid projId dirX dirZ now = (none, room) ∨
    (∃ pl, listGet room.players pid = some pl ∧
      fireProjectile norm room pid projId dirX dirZ now =
        (none, { room with players := listSet room.players pid { pl with lastFireTime := now } })) ∨
    (∃ pl, listGet room.players pid = some pl ∧
      fireProjectile norm room pid projId dirX dirZ now =
        (some (spawnProj norm pid projId pl dirX.val dirZ.val now),
         { room with
            players := listSet room.players pid { pl with lastFireTime := now },
            projectiles :=
              listSet room.projectiles projId (spawnProj norm pid projId pl dirX.val dirZ.val now) })) := by
  unfold fireProjectile
  by_cases hst : room.state = Phase.playing
  · rw [if_pos hst]
    split
    · left; rfl
    · rename_i player hsome
      by_cases hfin : (dirX.isFin && dirZ.isFin) = true
      · rw [if_pos hfin]
        by_cases hcd : now - player.lastFireTime < FIRE_COOLDOWN
        · rw [if_pos hcd]; left; rfl
        · rw [if_neg hcd]
          by_cases hlen : dirX.val * dirX.val + dirZ.val * dirZ.val < 1 / 10000
          · rw [if_pos hlen]; right; left; exact ⟨player, hsome, rfl⟩
          · rw [if_neg hlen]; right; right; exact ⟨player, hsome, rfl⟩
      · rw [if_neg hfin]; left; rfl
  · rw [if_neg hst]; left; rfl

theorem fireProjectile_players_length (norm : ℚ → ℚ → ℚ × ℚ) (room : Room)
    (pid projId : String) (dirX dirZ : JSVal) (now : ℤ) :
    (fireProjectile norm room pid projId dirX dirZ now).2.players.length
      = room.players.length := by
  rcases fireProjectile_spec norm room pid projId dirX dirZ now with
    h | ⟨pl, hpl, h⟩ | ⟨pl, hpl, h⟩
  · rw [h]
  · rw [h]; exact length_listSet_some room.players pid pl _ hpl
  · rw [h]; exact length_listSet_some room.players pid pl _ hpl

/-- The full computation of fireProjectile on the success path. -/
theorem fireProjectile_success (norm : ℚ → ℚ → ℚ × ℚ) (room : Room) (pid projId : String)
    (pl : Player) (dx dz : ℚ) (now : ℤ)
    (hst : room.state = Phase.playing)
    (hpl : listGet room.players pid = some pl)
    (hcd : ¬ (now - pl.lastFireTime < FIRE_COOLDOWN))
    (hlen : ¬ (dx * dx + dz * dz < 1 / 10000)) :
    fireProjectile norm room pid projId (JSVal.fin dx) (JSVal.fin dz) now =
      (some (spawnProj norm pid projId pl dx dz now),
       { room with
          players := listSet room.players pid { pl with lastFireTime := now },
          projectiles := listSet room.projectiles projId (spawnProj norm pid projId pl dx dz now) }) := by
  unfold fireProjectile
  rw [if_pos hst]
  split
  · rename_i hnone
    exact Option.noConfusion (hpl.symm.trans hnone)
  · rename_i player hsome
    rw [hpl] at hsome
    injection hsome with h
    subst h
    rw [if_pos (show ((JSVal.fin dx).isFin && (JSVal.fin dz).isFin) = true from rfl)]
    rw [if_neg hcd]
    simp only [JSVal.val]
    rw [if_neg hlen]

/-- A fire whose direction is invalid or whose cooldown has not elapsed is a
no-op returning null. -/
theorem fireProjectile_noop_cooldown (norm : ℚ → ℚ → ℚ × ℚ) (room : Room)
    (pid projId : String) (d1 d2 : JSVal) (now : ℤ) (pl : Player)
    (hst : room.state = Phase.playing)
    (hpl : listGet room.players pid = some pl)
    (hcd : (d1.isFin && d2.isFin) = true → now - pl.lastFireTime < FIRE_COOLDOWN) :
    fireProjectile norm room pid projId d1 d2 now = (none, room) := by
  unfold fireProjectile
  rw [if_pos hst]
  split
  · rename_i hnone
    exact Option.noConfusion (hpl.symm.trans hnone)
  · rename_i player hsome
    rw [hpl] at hsome
    injection hsome with h
    subst h
    by_cases hfin : (d1.isFin && d2.isFin) = true
    · rw [if_pos hfin, if_pos (hcd hfin)]
    · rw [if_neg hfin]

/-- The win invariant carried through tick's projectile loop: either the match
already ended, or every player's score is below WIN_SCORE. -/
def WinInv (acc : TickAcc) : Prop :=
  acc.state = Phase.ended ∨ ∀ e ∈ acc.players, e.2.score < WIN_SCORE

theorem stepProj_winInv (now : ℤ) (acc : TickAcc) (e : String × Projectile)
    (h : WinInv acc) : WinInv (stepProj now acc e) := by
  unfold stepProj
  dsimp only
  split
  · exact h
  · split
    · exact h
    · split
      · exact h
      · split
        · rename_i shooter hshooter
          rcases h with h | h
          · left
            simp only
            split
            · rfl
            · exact h
          · by_cases hwin : WIN_SCORE ≤ shooter.score + 1
            · left; simp only [hwin]; simp
            · right
              intro f hf
              simp only at hf
              rcases mem_listSet _ _ _ f hf with h2 | h2
              · subst h2; simp only; omega
              · exact h f h2
        · exact h

/-- Unfolding tick on a playing room. -/
theorem tick_unfold (room : Room) (now : ℤ) (hst : room.state = Phase.playing) :
    tick room now =
      ((room.projectiles.foldl (stepProj now) (tickAcc0 room)).hits,
       tickTimer
         { room with
            players := (room.projectiles.foldl (stepProj now) (tickAcc0 room)).players,
            projectiles := (room.projectiles.foldl (stepProj now) (tickAcc0 room)).projs.filter
              (fun e => ! (room.projectiles.foldl (stepProj now) (tickAcc0 room)).expired.contains e.1),
            state := (room.projectiles.foldl (stepProj now) (tickAcc0 room)).state } now) := by
  unfold tick
  rw [if_pos hst]

theorem tick_players_length (room : Room) (now : ℤ) :
    (tick room now).2.players.length = room.players.length := by
  by_cases hst : room.state = Phase.playing
  · rw [tick_unfold room now hst]
    dsimp only
    rw [tickTimer_players]
    exact foldlInv (fun acc => acc.players.length = room.players.length) (stepProj now)
      (fun a b ha => by simp only [stepProj_players_length]; exact ha)
      room.projectiles (tickAcc0 room) rfl
  · unfold tick
    rw [if_neg hst]

/-! ## Claims -/

/-- Claim C1, counterexample: the tick that ends the match by timeout leaves
a surviving mid-flight projectile in the projectiles map, so projectiles are
NOT cleared on every phase transition away from playing. -/
theorem C1_tick_to_ended_keeps_projectiles :
    roomTimeoutProj.state = Phase.playing ∧
    (tick roomTimeoutProj 181000).2.state = Phase.ended ∧
    (tick roomTimeoutProj 181000).2.projectiles ≠ [] := by
  refine ⟨rfl, ?_, ?_⟩ <;>
    norm_num [tick, tickAcc0, stepProj, findHit, tickTimer, jsAbs, roomTimeoutProj, mkPlayer,
      listGet, ARENA_WIDTH, ARENA_DEPTH, TICK_RATE, PROJECTILE_LIFETIME, MATCH_DURATION,
      PLAYER_RADIUS, PROJECTILE_RADIUS]

/-- Claim C1 (amended): the projectiles map is cleared by the departure abort
(removePlayer on a playing or countdown room), by a rematch, and on countdown
entry; the tick transitions into ended (win or timeout) do not clear it. -/
theorem C1_projectiles_cleared_on_abort_rematch_countdown :
    (∀ (room : Room) (pid : String),
      (room.state = Phase.playing ∨ room.state = Phase.countdown) →
      (match removePlayer room pid with
       | some r2 => r2.projectiles = []
       | none => True)) ∧
    (∀ room : Room, room.state = Phase.ended → (handleRematch room).2.projectiles = []) ∧
    (∀ room : Room, (startCountdownEntry room).projectiles = []) := by
  refine ⟨?_, ?_, ?_⟩
  · intro room pid h
    unfold removePlayer
    dsimp only
    by_cases h0 : (listDel room.players pid).length = 0
    · rw [if_pos h0]
      trivial
    · rw [if_neg h0, if_pos h]
  · intro room h
    unfold handleRematch
    rw [if_pos h]
  · intro room
    rfl

/-- Witness for C1's amended theorem at concrete rooms. -/
theorem C1_projectiles_cleared_witness :
    (match removePlayer roomTwoCountdown "a" with
     | some r2 => r2.projectiles = []
     | none => True) ∧
    (handleRematch roomEndedLeftover).2.projectiles = [] ∧
    (startCountdownEntry roomEndedLeftover).projectiles = [] :=
  ⟨C1_projectiles_cleared_on_abort_rematch_countdown.1 roomTwoCountdown "a" (Or.inr rfl),
   C1_projectiles_cleared_on_abort_rematch_countdown.2.1 roomEndedLeftover rfl,
   C1_projectiles_cleared_on_abort_rematch_countdown.2.2 roomEndedLeftover⟩

/-- Claim C2, counterexample: a degenerate-direction fire after the cooldown
has elapsed returns null yet mutates the room — the player's lastFireTime is
written before the direction-magnitude check. -/
theorem C2_degenerate_fire_mutates_room :
    (fireProjectile normId roomIdleFire "a" "p1" (JSVal.fin (1/1000)) (JSVal.fin 0) 1000).1
        = none ∧
    (fireProjectile normId roomIdleFire "a" "p1" (JSVal.fin (1/1000)) (JSVal.fin 0) 1000).2
        ≠ roomIdleFire := by
  constructor <;>
    norm_num [fireProjectile, JSVal.isFin, JSVal.val, roomIdleFire, mkPlayer, listGet, listSet,
      FIRE_COOLDOWN, Room.mk.injEq, Player.mk.injEq]

/-- Claim C2 (amended): each rejection cause has an exactly pinned effect.
Rejections for wrong phase, unknown player, non-finite direction, or
unelapsed cooldown return null and leave the room entirely unchanged; a
rejection for degenerate direction (magnitude below 0.01 after every earlier
check passed) returns null, adds no projectile, and changes exactly the
firing player, whose lastFireTime is set to now; every null return leaves
projectiles and phase unchanged; and a successful fire also sets the firing
player's lastFireTime to now. -/
theorem C2_rejected_fire_effects (norm : ℚ → ℚ → ℚ × ℚ) (room : Room)
    (pid projId : String) (dirX dirZ : JSVal) (now : ℤ) :
    (room.state ≠ Phase.playing →
      fireProjectile norm room pid projId dirX dirZ now = (none, room)) ∧
    (listGet room.players pid = none →
      fireProjectile norm room pid projId dirX dirZ now = (none, room)) ∧
    ((dirX.isFin && dirZ.isFin) = false →
      fireProjectile norm room pid projId dirX dirZ now = (none, room)) ∧
    (∀ pl : Player, listGet room.players pid = some pl →
      now - pl.lastFireTime < FIRE_COOLDOWN →
      fireProjectile norm room pid projId dirX dirZ now = (none, room)) ∧
    (∀ pl : Player, room.state = Phase.playing →
      listGet room.players pid = some pl →
      (dirX.isFin && dirZ.isFin) = true →
      ¬ (now - pl.lastFireTime < FIRE_COOLDOWN) →
      dirX.val * dirX.val + dirZ.val * dirZ.val < 1 / 10000 →
      fireProjectile norm room pid projId dirX dirZ now =
        (none,
         { room with players := listSet room.players pid { pl with lastFireTime := now } })) ∧
    ((fireProjectile norm room pid projId dirX dirZ now).1 = none →
      (fireProjectile norm room pid projId dirX dirZ now).2.projectiles = room.projectiles ∧
      (fireProjectile norm room pid projId dirX dirZ now).2.state = room.state) ∧
    ((fireProjectile norm room pid projId dirX dirZ now).1.isSome = true →
      (match listGet room.players pid with
       | some pl =>
         listGet (fireProjectile norm room pid projId dirX dirZ now).2.players pid =
           some { pl with lastFireTime := now }
       | none => False)) := by
  refine ⟨?_, ?_, ?_, ?_, ?_, ?_, ?_⟩
  · intro h
    unfold fireProjectile
    rw [if_neg h]
  · intro h
    unfold fireProjectile
    by_cases hst : room.state = Phase.playing
    · rw [if_pos hst]
      split
      · rfl
      · rename_i player hsome
        exact Option.noConfusion (h.symm.trans hsome)
    · rw [if_neg hst]
  · intro h
    unfold fireProjectile
    by_cases hst : room.state = Phase.playing
    · rw [if_pos hst]
      split
      · rfl
      · rename_i player hsome
        rw [if_neg (by simp [h])]
    · rw [if_neg hst]
  · intro pl hpl hcd
    unfold fireProjectile
    by_cases hst : room.state = Phase.playing
    · rw [if_pos hst]
      split
      · rfl
      · rename_i player hsome
        have h2 : pl = player := Option.some.inj (hpl.symm.trans hsome)
        subst h2
        by_cases hfin : (dirX.isFin && dirZ.isFin) = true
        · rw [if_pos hfin, if_pos hcd]
        · rw [if_neg hfin]
    · rw [if_neg hst]
  · intro pl hst hpl hfin hcd hlen
    unfold fireProjectile
    rw [if_pos hst]
    split
    · rename_i hnone
      exact Option.noConfusion (hpl.symm.trans hnone)
    · rename_i player hsome
      have h2 : pl = player := Option.some.inj (hpl.symm.trans hsome)
      subst h2
      rw [if_pos hfin, if_neg hcd, if_pos hlen]
  · intro h
    rcases fireProjectile_spec norm room pid projId dirX dirZ now with
      hc | ⟨pl, hpl, hc⟩ | ⟨pl, hpl, hc⟩
    · rw [hc]
      exact ⟨rfl, rfl⟩
    · rw [hc]
      exact ⟨rfl, rfl⟩
    · rw [hc] at h
      simp at h
  · intro hs
    rcases fireProjectile_spec norm room pid projId dirX dirZ now with
      hc | ⟨pl, hpl, hc⟩ | ⟨pl, hpl, hc⟩
    · rw [hc] at hs
      simp at hs
    · rw [hc] at hs
      simp at hs
    · rw [hpl]
      show listGet (fireProjectile norm room pid projId dirX dirZ now).2.players pid
        = some { pl with lastFireTime := now }
      rw [hc]
      exact listGet_listSet_self room.players pid _

/-- Witness for C2's amended theorem: one concrete instance per rejection
cause — wrong phase, unknown player, non-finite direction, unelapsed
cooldown (all pure no-ops), and the degenerate direction that consumes the
cooldown. -/
theorem C2_rejected_fire_effects_witness :
    (fireProjectile normId roomTwoCountdown "a" "p1" (JSVal.fin 1) (JSVal.fin 0) 1000
        = (none, roomTwoCountdown)) ∧
    (fireProjectile normId roomIdleFire "zz" "p1" (JSVal.fin 1) (JSVal.fin 0) 1000
        = (none, roomIdleFire)) ∧
    (fireProjectile normId roomIdleFire "a" "p1" JSVal.nonFinite (JSVal.fin 0) 1000
        = (none, roomIdleFire)) ∧
    (fireProjectile normId roomIdleFire "a" "p1" (JSVal.fin 1) (JSVal.fin 0) 100
        = (none, roomIdleFire)) ∧
    (fireProjectile normId roomIdleFire "a" "p1" (JSVal.fin (1/1000)) (JSVal.fin 0) 1000
        = (none,
           { roomIdleFire with
              players :=
                listSet roomIdleFire.players "a"
                  { mkPlayer "a" 0 0 0 0 with lastFireTime := 1000 } })) :=
  ⟨(C2_rejected_fire_effects normId roomTwoCountdown "a" "p1" (JSVal.fin 1) (JSVal.fin 0)
      1000).1 (by decide),
   (C2_rejected_fire_effects normId roomIdleFire "zz" "p1" (JSVal.fin 1) (JSVal.fin 0)
      1000).2.1 (by decide),
   (C2_rejected_fire_effects normId roomIdleFire "a" "p1" JSVal.nonFinite (JSVal.fin 0)
      1000).2.2.1 rfl,
   (C2_rejected_fire_effects normId roomIdleFire "a" "p1" (JSVal.fin 1) (JSVal.fin 0)
      100).2.2.2.1 (mkPlayer "a" 0 0 0 0) (by decide) (by decide),
   (C2_rejected_fire_effects normId roomIdleFire "a" "p1" (JSVal.fin (1/1000)) (JSVal.fin 0)
      1000).2.2.2.2.1 (mkPlayer "a" 0 0 0 0) rfl (by decide) rfl (by decide)
      (by norm_num [JSVal.val])⟩

/-- Claim C3, counterexample: when the winning hit lands on the very tick the
match timer reaches zero, the phase transition is score-driven (score goes
9 → 10 = WIN_SCORE) yet the match result reports reason timeout, because the
reason is computed from timeRemaining alone. -/
theorem C3_score_win_at_timeout_reports_timeout :
    roomScoreAtTimeout.state = Phase.playing ∧
    listGet roomScoreAtTimeout.players "a" = some (mkPlayer "a" (-5) 0 9 0) ∧
    (tick roomScoreAtTimeout 181000).2.state = Phase.ended ∧
    listGet (tick roomScoreAtTimeout 181000).2.players "a" = some (mkPlayer "a" (-5) 0 10 0) ∧
    (getMatchResults (tick roomScoreAtTimeout 181000).2).reason = "timeout" := by
  refine ⟨rfl, by decide, ?_, ?_, ?_⟩ <;>
    norm_num [tick, tickAcc0, stepProj, findHit, tickTimer, jsAbs, getMatchResults,
      roomScoreAtTimeout, mkPlayer, listGet, listSet, ARENA_WIDTH, ARENA_DEPTH, TICK_RATE,
      PROJECTILE_LIFETIME, MATCH_DURATION, PLAYER_RADIUS, PROJECTILE_RADIUS, WIN_SCORE] <;>
    decide

/-- Claim C3 (amended): a step on a playing room in which some score first
reaches WIN_SCORE ends the match on that same step; the result reports
reason score whenever timeRemaining is still positive afterwards, and reason
timeout whenever timeRemaining is ≤ 0 — the reason depends on the timer
alone, not on which condition drove the transition. -/
theorem C3_score_win_ends_same_step (room : Room) (now : ℤ)
    (hst : room.state = Phase.playing)
    (hbefore : ∀ e ∈ room.players, e.2.score < WIN_SCORE)
    (hafter : ∃ e ∈ (tick room now).2.players, WIN_SCORE ≤ e.2.score) :
    (tick room now).2.state = Phase.ended ∧
    (0 < (tick room now).2.timeRemaining →
      (getMatchResults (tick room now).2).reason = "score") ∧
    ((tick room now).2.timeRemaining ≤ 0 →
      (getMatchResults (tick room now).2).reason = "timeout") := by
  have hplayers : (tick room now).2.players
      = (room.projectiles.foldl (stepProj now) (tickAcc0 room)).players := by
    rw [tick_unfold room now hst]
    exact tickTimer_players _ now
  have hinv : WinInv (room.projectiles.foldl (stepProj now) (tickAcc0 room)) :=
    foldlInv WinInv (stepProj now) (fun a b ha => stepProj_winInv now a b ha)
      room.projectiles (tickAcc0 room) (Or.inr (fun e he => hbefore e he))
  have hend : (tick room now).2.state = Phase.ended := by
    obtain ⟨e, he, hge⟩ := hafter
    rw [hplayers] at he
    have hacc : (room.projectiles.foldl (stepProj now) (tickAcc0 room)).state = Phase.ended := by
      rcases hinv with h | h
      · exact h
      · exact absurd (h e he) (not_lt.mpr hge)
    rw [tick_unfold room now hst]
    exact tickTimer_state_ended _ now hacc
  refine ⟨hend, ?_, ?_⟩
  · intro htr
    have h0 : (getMatchResults (tick room now).2).reason
        = (if (tick room now).2.timeRemaining ≤ 0 then "timeout" else "score") := rfl
    rw [h0, if_neg (not_le.mpr htr)]
  · intro htr
    have h0 : (getMatchResults (tick room now).2).reason
        = (if (tick room now).2.timeRemaining ≤ 0 then "timeout" else "score") := rfl
    rw [h0, if_pos htr]

/-- Witness for C3's amended theorem: an early score win reports reason
score. -/
theorem C3_score_win_ends_same_step_witness :
    (tick roomScoreEarly 2000).2.state = Phase.ended ∧
    (getMatchResults (tick roomScoreEarly 2000).2).reason = "score" := by
  have hplayers : (tick roomScoreEarly 2000).2.players
      = [("a", mkPlayer "a" (-5) 0 10 0), ("b", mkPlayer "b" 5 0 0 0)] := by
    norm_num [tick, tickAcc0, stepProj, findHit, tickTimer, jsAbs, roomScoreEarly, mkPlayer,
      listGet, listSet, ARENA_WIDTH, ARENA_DEPTH, TICK_RATE, PROJECTILE_LIFETIME,
      MATCH_DURATION, PLAYER_RADIUS, PROJECTILE_RADIUS, WIN_SCORE] <;> decide
  have h := C3_score_win_ends_same_step roomScoreEarly 2000 rfl (by decide)
    (by rw [hplayers]; decide)
  have htr : 0 < (tick roomScoreEarly 2000).2.timeRemaining := by
    norm_num [tick, tickAcc0, stepProj, findHit, tickTimer, jsAbs, roomScoreEarly, mkPlayer,
      listGet, listSet, ARENA_WIDTH, ARENA_DEPTH, TICK_RATE, PROJECTILE_LIFETIME,
      MATCH_DURATION, PLAYER_RADIUS, PROJECTILE_RADIUS, WIN_SCORE]
  exact ⟨h.1, h.2.1 htr⟩

/-- Claim C4: players.size never exceeds MAX_PLAYERS on any reachable room,
and a join on a full room returns null and leaves the room unchanged. -/
theorem C4_capacity_invariant :
    (∀ room : Room, Reachable room → room.players.length ≤ MAX_PLAYERS) ∧
    (∀ (room : Room) (pid : String) (now : ℤ),
      MAX_PLAYERS ≤ room.players.length → addPlayer room pid now = (none, room)) := by
  constructor
  · intro room h
    induction h with
    | init roomId => simp [initRoom, MAX_PLAYERS]
    | add room pid now hr ih =>
      unfold addPlayer
      by_cases hfull : MAX_PLAYERS ≤ room.players.length
      · rw [if_pos hfull]
        exact ih
      · rw [if_neg hfull]
        dsimp only
        refine le_trans (length_listSet_le room.players pid _) ?_
        simp only [MAX_PLAYERS] at hfull ⊢
        omega
    | remove room r2 pid hr hrem ih =>
      unfold removePlayer at hrem
      dsimp only at hrem
      by_cases h0 : (listDel room.players pid).length = 0
      · rw [if_pos h0] at hrem
        exact Option.noConfusion hrem
      · rw [if_neg h0] at hrem
        by_cases habort : room.state = Phase.playing ∨ room.state = Phase.countdown
        · rw [if_pos habort] at hrem
          injection hrem with h2
          rw [← h2]
          exact le_trans (length_listDel_le room.players pid) ih
        · rw [if_neg habort] at hrem
          injection hrem with h2
          rw [← h2]
          exact le_trans (length_listDel_le room.players pid) ih
    | move room pid x z rot hr ih =>
      rw [updatePlayerPosition_players_length]
      exact ih
    | fire norm room pid projId dx dz now hr ih =>
      rw [fireProjectile_players_length]
      exact ih
    | step room now hr ih =>
      rw [tick_players_length]
      exact ih
    | countdown room hr ih =>
      rw [show (startCountdownEntry room).players = resetPlayers 0 room.players from rfl,
        length_resetPlayers]
      exact ih
    | start room now hr ih => exact ih
    | stop room hr ih => exact ih
    | rematch room hr ih =>
      unfold handleRematch
      by_cases hend : room.state = Phase.ended
      · rw [if_pos hend]
        exact ih
      · rw [if_neg hend]
        exact ih
    | beat room pid now hr ih =>
      rw [heartbeat_players_length]
      exact ih
  · intro room pid now h
    unfold addPlayer
    rw [if_pos h]

/-- Witness for C4 at concrete rooms: the fresh room respects the bound, and
a join on a full room is rejected without mutation. -/
theorem C4_capacity_invariant_witness :
    (initRoom "r").players.length ≤ MAX_PLAYERS ∧
    addPlayer roomTwoCountdown "c" 0 = (none, roomTwoCountdown) :=
  ⟨C4_capacity_invariant.1 (initRoom "r") (Reachable.init "r"),
   C4_capacity_invariant.2 roomTwoCountdown "c" 0 (by decide)⟩

/-- Claim C5: the room identifier actually used as the registry key is only
length-capped — a string with a disallowed character passes through verbatim,
although the repository's own audit document records charset sanitization
with a default fallback as implemented.  The fallback exists only for an
absent or empty parameter. -/
theorem C5_roomId_charset_not_enforced :
    deriveRoomId (some "bad!id") = "bad!id" ∧
    ("bad!id".data.all isAllowedChar) = false ∧
    deriveRoomId none = "default" ∧
    deriveRoomId (some "") = "default" :=
  ⟨by decide, by decide, by decide, by decide⟩

/-- Claim C6: when a projectile whose owner has left the room hits a player,
the hit record is emitted and the projectile expires, but no score changes
and no win-check transition happens for that hit — players and state of the
accumulator are untouched. -/
theorem C6_orphan_projectile_hit (now : ℤ) (acc : TickAcc) (projId : String)
    (p0 : Projectile) (tgt : String × Player)
    (hb : ¬ (ARENA_WIDTH / 2 < jsAbs (p0.x + p0.vx * (1 / TICK_RATE)) ∨
             ARENA_DEPTH / 2 < jsAbs (p0.z + p0.vz * (1 / TICK_RATE))))
    (hl : ¬ (PROJECTILE_LIFETIME < now - p0.createdAt))
    (hhit : findHit p0.ownerId (p0.x + p0.vx * (1 / TICK_RATE)) (p0.z + p0.vz * (1 / TICK_RATE))
              acc.players = some tgt)
    (howner : listGet acc.players p0.ownerId = none) :
    stepProj now acc (projId, p0) =
      { acc with
          projs := acc.projs ++ [(projId,
            { p0 with x := p0.x + p0.vx * (1 / TICK_RATE), z := p0.z + p0.vz * (1 / TICK_RATE) })],
          hits := acc.hits ++ [{ projectileId := projId, shooterId := p0.ownerId,
                                 targetId := tgt.1,
                                 x := p0.x + p0.vx * (1 / TICK_RATE),
                                 z := p0.z + p0.vz * (1 / TICK_RATE) }],
          expired := acc.expired ++ [projId] } := by
  unfold stepProj
  dsimp only
  rw [if_neg hb, if_neg hl]
  split
  · rename_i hnone
    exact Option.noConfusion (hhit.symm.trans hnone)
  · rename_i tgt2 hsome
    have h2 : tgt = tgt2 := Option.some.inj (hhit.symm.trans hsome)
    subst h2
    split
    · rename_i shooter hshooter
      exact Option.noConfusion (howner.symm.trans hshooter)
    · rfl

/-- Witness for C6 at a concrete orphan projectile hitting "b". -/
theorem C6_orphan_projectile_hit_witness :
    stepProj 100 accOrphan ("q", projOrphan) =
      { accOrphan with
          projs := accOrphan.projs ++ [("q",
            { projOrphan with x := projOrphan.x + projOrphan.vx * (1 / TICK_RATE),
                              z := projOrphan.z + projOrphan.vz * (1 / TICK_RATE) })],
          hits := accOrphan.hits ++ [{ projectileId := "q", shooterId := projOrphan.ownerId,
                                       targetId := "b",
                                       x := projOrphan.x + projOrphan.vx * (1 / TICK_RATE),
                                       z := projOrphan.z + projOrphan.vz * (1 / TICK_RATE) }],
          expired := accOrphan.expired ++ ["q"] } :=
  C6_orphan_projectile_hit 100 accOrphan "q" projOrphan ("b", mkPlayer "b" 5 0 0 0)
    (by norm_num [jsAbs, projOrphan, ARENA_WIDTH, ARENA_DEPTH, TICK_RATE])
    (by decide)
    (by norm_num [findHit, accOrphan, projOrphan, mkPlayer, PLAYER_RADIUS, PROJECTILE_RADIUS,
      TICK_RATE] <;> decide)
    (by decide)

/-- Claim C7: a move intent with any non-finite or non-number component is
rejected with no mutation at all; a finite move stores x and z clamped into
the arena bounds shrunk by the player radius and stores rotation unmodified. -/
theorem C7_move_validation (room : Room) (pid : String) :
    (∀ x z rot : JSVal, (x.isFin && z.isFin && rot.isFin) = false →
      updatePlayerPosition room pid x z rot = room) ∧
    (∀ (xq zq rq : ℚ) (pl : Player), listGet room.players pid = some pl →
      listGet (updatePlayerPosition room pid (JSVal.fin xq) (JSVal.fin zq) (JSVal.fin rq)).players
          pid
        = some { pl with
            x := max (-(ARENA_WIDTH / 2 - PLAYER_RADIUS)) (min (ARENA_WIDTH / 2 - PLAYER_RADIUS) xq),
            z := max (-(ARENA_DEPTH / 2 - PLAYER_RADIUS)) (min (ARENA_DEPTH / 2 - PLAYER_RADIUS) zq),
            rotation := rq } ∧
      -(ARENA_WIDTH / 2 - PLAYER_RADIUS)
          ≤ max (-(ARENA_WIDTH / 2 - PLAYER_RADIUS)) (min (ARENA_WIDTH / 2 - PLAYER_RADIUS) xq) ∧
      max (-(ARENA_WIDTH / 2 - PLAYER_RADIUS)) (min (ARENA_WIDTH / 2 - PLAYER_RADIUS) xq)
          ≤ ARENA_WIDTH / 2 - PLAYER_RADIUS ∧
      -(ARENA_DEPTH / 2 - PLAYER_RADIUS)
          ≤ max (-(ARENA_DEPTH / 2 - PLAYER_RADIUS)) (min (ARENA_DEPTH / 2 - PLAYER_RADIUS) zq) ∧
      max (-(ARENA_DEPTH / 2 - PLAYER_RADIUS)) (min (ARENA_DEPTH / 2 - PLAYER_RADIUS) zq)
          ≤ ARENA_DEPTH / 2 - PLAYER_RADIUS) := by
  constructor
  · intro x z rot hfin
    unfold updatePlayerPosition
    split
    · rfl
    · rename_i player hsome
      rw [if_neg (by simp [hfin])]
  · intro xq zq rq pl hpl
    unfold updatePlayerPosition
    split
    · rename_i hnone
      exact Option.noConfusion (hpl.symm.trans hnone)
    · rename_i pl2 hsome
      have h2 : pl = pl2 := Option.some.inj (hpl.symm.trans hsome)
      subst h2
      rw [if_pos (show ((JSVal.fin xq).isFin && (JSVal.fin zq).isFin && (JSVal.fin rq).isFin)
        = true from rfl)]
      dsimp only
      refine ⟨?_, ?_, ?_, ?_, ?_⟩
      · exact listGet_listSet_self room.players pid _
      · exact le_max_left _ _
      · exact max_le (by norm_num [ARENA_WIDTH, PLAYER_RADIUS]) (min_le_left _ _)
      · exact le_max_left _ _
      · exact max_le (by norm_num [ARENA_DEPTH, PLAYER_RADIUS]) (min_le_left _ _)

/-- Witness for C7: a non-number x is a no-op, and an out-of-range finite
move is stored clamped with its rotation kept. -/
theorem C7_move_validation_witness :
    updatePlayerPosition roomIdleFire "a" JSVal.nonNumber (JSVal.fin 0) (JSVal.fin 0)
        = roomIdleFire ∧
    listGet (updatePlayerPosition roomIdleFire "a" (JSVal.fin 100) (JSVal.fin (-100))
        (JSVal.fin 7)).players "a"
      = some { mkPlayer "a" 0 0 0 0 with
          x := max (-(ARENA_WIDTH / 2 - PLAYER_RADIUS)) (min (ARENA_WIDTH / 2 - PLAYER_RADIUS) 100),
          z := max (-(ARENA_DEPTH / 2 - PLAYER_RADIUS))
                 (min (ARENA_DEPTH / 2 - PLAYER_RADIUS) (-100)),
          rotation := 7 } :=
  ⟨(C7_move_validation roomIdleFire "a").1 JSVal.nonNumber (JSVal.fin 0) (JSVal.fin 0) rfl,
   ((C7_move_validation roomIdleFire "a").2 100 (-100) 7 (mkPlayer "a" 0 0 0 0) (by decide)).1⟩

/-- Claim C8: removing either player of a two-player room in countdown or
playing yields a waiting room with no projectiles and the other player's
entry — score, position, rotation and characterId — byte-for-byte unchanged. -/
theorem C8_departure_abort (room : Room) (a b : String) (pa pb : Player)
    (hplayers : room.players = [(a, pa), (b, pb)]) (hab : a ≠ b)
    (hst : room.state = Phase.playing ∨ room.state = Phase.countdown) :
    removePlayer room a =
      some { room with players := [(b, pb)], state := Phase.waiting, projectiles := [],
                       matchTimer := false, countdownTimer := false } ∧
    removePlayer room b =
      some { room with players := [(a, pa)], state := Phase.waiting, projectiles := [],
                       matchTimer := false, countdownTimer := false } := by
  have hda : listDel room.players a = [(b, pb)] := by
    rw [hplayers]; simp [listDel]
  have hdb : listDel room.players b = [(a, pa)] := by
    rw [hplayers]; simp [listDel, hab]
  constructor
  · unfold removePlayer
    dsimp only
    rw [hda, if_neg (by simp), if_pos hst]
  · unfold removePlayer
    dsimp only
    rw [hdb, if_neg (by simp), if_pos hst]

/-- Witness for C8 at the concrete two-player countdown room. -/
theorem C8_departure_abort_witness :
    removePlayer roomTwoCountdown "a" =
      some { roomTwoCountdown with
              players := [("b", mkPlayer "b" 8 0 0 0)]
              state := Phase.waiting
              projectiles := []
              matchTimer := false
              countdownTimer := false } ∧
    removePlayer roomTwoCountdown "b" =
      some { roomTwoCountdown with
              players := [("a", mkPlayer "a" (-8) 0 0 0)]
              state := Phase.waiting
              projectiles := []
              matchTimer := false
              countdownTimer := false } :=
  C8_departure_abort roomTwoCountdown "a" "b" (mkPlayer "a" (-8) 0 0 0) (mkPlayer "b" 8 0 0 0)
    rfl (by decide) (Or.inr rfl)

/-- Claim C9: a valid fire followed by a second fire intent from the same
player less than FIRE_COOLDOWN ms later yields exactly one projectile — the
first fire adds one projectile and the second is rejected without any
mutation. -/
theorem C9_cooldown_yields_one_projectile (norm : ℚ → ℚ → ℚ × ℚ) (room : Room)
    (pid projId1 projId2 : String) (pl : Player) (dx dz : ℚ) (d2x d2z : JSVal) (t1 t2 : ℤ)
    (hst : room.state = Phase.playing)
    (hpl : listGet room.players pid = some pl)
    (hcool : FIRE_COOLDOWN ≤ t1 - pl.lastFireTime)
    (hlen : 1 / 10000 ≤ dx * dx + dz * dz)
    (hfresh : listGet room.projectiles projId1 = none)
    (ht : t2 - t1 < FIRE_COOLDOWN) :
    ((fireProjectile norm room pid projId1 (JSVal.fin dx) (JSVal.fin dz) t1).1.isSome = true) ∧
    ((fireProjectile norm room pid projId1 (JSVal.fin dx) (JSVal.fin dz) t1).2.projectiles.length
        = room.projectiles.length + 1) ∧
    (fireProjectile norm
        ((fireProjectile norm room pid projId1 (JSVal.fin dx) (JSVal.fin dz) t1).2)
        pid projId2 d2x d2z t2
      = (none, (fireProjectile norm room pid projId1 (JSVal.fin dx) (JSVal.fin dz) t1).2)) := by
  have hs := fireProjectile_success norm room pid projId1 pl dx dz t1 hst hpl
    (not_lt.mpr hcool) (not_lt.mpr hlen)
  refine ⟨?_, ?_, ?_⟩
  · rw [hs]
    rfl
  · rw [hs]
    dsimp only
    exact length_listSet_none room.projectiles projId1 _ hfresh
  · rw [hs]
    dsimp only
    refine fireProjectile_noop_cooldown norm _ pid projId2 d2x d2z t2
      { pl with lastFireTime := t1 } hst ?_ ?_
    · exact listGet_listSet_self room.players pid _
    · intro _
      exact ht

/-- Witness for C9 at a concrete double-tap 200 ms apart. -/
theorem C9_cooldown_yields_one_projectile_witness :
    ((fireProjectile normId roomIdleFire "a" "p1" (JSVal.fin 1) (JSVal.fin 0) 1000).1.isSome
        = true) ∧
    ((fireProjectile normId roomIdleFire "a" "p1" (JSVal.fin 1) (JSVal.fin 0) 1000).2.projectiles.length
        = roomIdleFire.projectiles.length + 1) ∧
    (fireProjectile normId
        ((fireProjectile normId roomIdleFire "a" "p1" (JSVal.fin 1) (JSVal.fin 0) 1000).2)
        "a" "p2" (JSVal.fin 1) (JSVal.fin 0) 1200
      = (none, (fireProjectile normId roomIdleFire "a" "p1" (JSVal.fin 1) (JSVal.fin 0) 1000).2)) :=
  C9_cooldown_yields_one_projectile normId roomIdleFire "a" "p1" "p2" (mkPlayer "a" 0 0 0 0)
    1 0 (JSVal.fin 1) (JSVal.fin 0) 1000 1200 rfl (by decide) (by decide) (by norm_num)
    (by decide) (by decide)

/-- Claim C10: the role slot is taken from the player count at join time, so
after join a, join b, remove a, join c the two occupants b and c both hold
role B — characterId dark-cupid, spawn x = +8 and rotation Math.PI — while
the very first joiner had received role A. -/
theorem C10_role_assigned_by_current_size :
    ((addPlayer (initRoom "r") "a" 0).1.map Player.characterId = some "cupid_prime") ∧
    ((roomRejoined.map fun r => r.players.map fun e => (e.1, e.2.characterId, e.2.x, e.2.rotation))
      = some [("b", "dark_cupid", 8, jsPI), ("c", "dark_cupid", 8, jsPI)]) :=
  ⟨by decide, by decide⟩

end Blitz
